import Mathlib

/-!
Verification development for the `lancedb-ffi` crate
(`src/rust/lancedb-ffi/src/lib.rs`): a shallow embedding of the
`LanceDBHandle` operations (`open`, `store`, `search`, `delete`, `list`,
`clear`) together with proofs about their control flow, error taxonomy,
predicate construction and upsert semantics.

Modelling notes.
* The underlying LanceDB engine is external to the crate.  Each engine
  primitive the crate invokes (connect, table_names, open_table, delete,
  add, create_table, drop_table, query construction/execution/collection)
  is modelled by an outcome supplied in an `Env` record: `Except String
  Unit`, where `.error e` stands for the engine call failing with message
  `e` (the Rust code only consumes `e.to_string()`).  The engine's state
  (the single managed `memories` table) is a `DBState`; a successful
  delete/append/create/drop updates it with the engine's documented
  semantics.
* `f32`/`f64` values are modelled as exact rationals (`Rat`): no claim in
  scope depends on floating-point rounding, only on which arithmetic
  expression is computed.
* Each operation also returns the list of engine/filesystem calls it
  performed (`trace`), used to state "performs no I/O" properties.
-/

namespace LanceFFI

/-- The single-quote character (ASCII 39), central to the SQL-literal
escaping done by the source. -/
def quoteChar : Char := '\x27'

/-- The single quote as a one-character string. -/
def quoteStr : String := "\x27"

/-- `LanceError` from the source (`enum LanceError`), one variant per
taxonomy entry, each carrying a human-readable message. -/
inductive LanceError where
  | ConnectionFailed (message : String)
  | TableError (message : String)
  | QueryError (message : String)
  | InsertError (message : String)
  | DeleteError (message : String)
  | SchemaError (message : String)
deriving DecidableEq, Repr

/-- `true` exactly when a result is `Err(QueryError ...)`. -/
def isQueryErrorResult {α : Type} : Except LanceError α → Bool
  | .error (.QueryError _) => true
  | _ => false

/-- The logical record shape of one row of the managed table (the columns
of `make_schema`): key, agent_id, text, embedding, optional metadata,
created_at (`i64` milliseconds). -/
structure Record where
  key : String
  agent_id : String
  text : String
  embedding : List Rat
  metadata : Option String
  created_at : Int
deriving DecidableEq, Repr

/-- `SearchResult` from the source. -/
structure SearchResult where
  key : String
  text : String
  score : Rat
  metadata : Option String
deriving DecidableEq, Repr, Inhabited

/-- The handle's fields: `db_path: String`, `embedding_dim: i32`. -/
structure HandleCfg where
  db_path : String
  embedding_dim : Int
deriving DecidableEq, Repr

/-- `DEFAULT_TABLE` from the source. -/
def DEFAULT_TABLE : String := "memories"

/-- State of the on-disk store: the single managed table, `none` when the
table does not exist, `some rows` when it exists with the given live rows. -/
structure DBState where
  memories : Option (List Record)
deriving DecidableEq, Repr

/-- Rust `i as usize` for an `i32` value `i` (64-bit platform): sign-extend
then reinterpret, i.e. reduce modulo `2 ^ 64`. -/
def i32AsUsize (d : Int) : Nat := (d % (2 : Int) ^ (64 : Nat)).toNat

-- ---------------------------------------------------------------------------
-- Predicate strings and SQL-literal escaping
-- ---------------------------------------------------------------------------

/-- Characterwise embedding of Rust `s.replace('\x27', "\x27\x27")`: a
char-pattern `replace` substitutes every occurrence of the character. -/
def escChars (l : List Char) : List Char :=
  l.flatMap (fun c => if c = quoteChar then [quoteChar, quoteChar] else [c])

/-- String-level version of the quote doubling done at the three predicate
construction sites in the source. -/
def escapeSQ (s : String) : String := String.mk (escChars s.data)

/-- The predicate built by `store` (line 144) and `delete` (line 327):
`format!("key = \x27\x7b\x7d\x27", key.replace(...))`. -/
def keyPredicate (k : String) : String :=
  "key = " ++ quoteStr ++ escapeSQ k ++ quoteStr

/-- The predicate built by `list` (line 362):
`format!("starts_with(key, \x27\x7b\x7d\x27)", p.replace(...))`. -/
def startsWithPredicate (p : String) : String :=
  "starts_with(key, " ++ quoteStr ++ escapeSQ p ++ quoteStr ++ ")"

/-- Engine-side scan of a SQL string literal body: consumes characters
after the opening quote; `\x27\x27` denotes a literal quote, a lone
`\x27` terminates the literal.  Returns the literal's characters and the
remaining input, or `none` if the literal is unterminated. -/
def parseLit : List Char → Option (List Char × List Char)
  | [] => none
  | c :: rest =>
    if c = quoteChar then
      match rest with
      | [] => some ([], [])
      | c2 :: rest2 =>
        if c2 = quoteChar then
          (parseLit rest2).map (fun p => (quoteChar :: p.1, p.2))
        else
          some ([], rest)
    else
      (parseLit rest).map (fun p => (c :: p.1, p.2))

/-- Engine-side reading of a `key = \x27...\x27` predicate: returns the
key value the predicate selects, or `none` if the string is not of that
shape.  This is the engine's documented semantics of the only delete
predicate the crate ever sends. -/
def parseKeyEq (s : String) : Option String :=
  match s.data with
  | 'k' :: 'e' :: 'y' :: ' ' :: '=' :: ' ' :: c :: rest =>
    if c = quoteChar then
      match parseLit rest with
      | some (lit, []) => some (String.mk lit)
      | _ => none
    else none
  | _ => none

/-- Engine semantics of a predicate delete on the table: rows matching the
`key = \x27...\x27` predicate are removed; a predicate of any other shape
matches no rows. -/
def engineDeleteSem (pred : String) (tbl : List Record) : List Record :=
  match parseKeyEq pred with
  | some k => tbl.filter (fun r => r.key != k)
  | none => tbl

theorem stringDataAppend (s t : String) : (s ++ t).data = s.data ++ t.data := by
  cases s
  cases t
  rfl

theorem escChars_cons (c : Char) (cs : List Char) :
    escChars (c :: cs) = (if c = quoteChar then [quoteChar, quoteChar] else [c]) ++ escChars cs := by
  simp [escChars]

theorem parseLit_escChars (l : List Char) :
    parseLit (escChars l ++ [quoteChar]) = some (l, []) := by
  induction l with
  | nil => simp [escChars, parseLit]
  | cons c cs ih =>
    by_cases hc : c = quoteChar
    · subst hc
      have h1 : escChars (quoteChar :: cs) ++ [quoteChar] =
          quoteChar :: quoteChar :: (escChars cs ++ [quoteChar]) := by
        rw [escChars_cons]
        simp
      rw [h1, parseLit]
      simp [parseLit, ih]
    · have h1 : escChars (c :: cs) ++ [quoteChar] = c :: (escChars cs ++ [quoteChar]) := by
        rw [escChars_cons]
        simp [hc]
      rw [h1, parseLit.eq_def]
      simp [hc, ih]

theorem keyPredicate_data (k : String) :
    (keyPredicate k).data =
      'k' :: 'e' :: 'y' :: ' ' :: '=' :: ' ' :: quoteChar :: (escChars k.data ++ [quoteChar]) := by
  simp [keyPredicate, stringDataAppend, escapeSQ, quoteStr, quoteChar]

theorem parseKeyEq_keyPredicate (k : String) :
    parseKeyEq (keyPredicate k) = some k := by
  rw [parseKeyEq, keyPredicate_data]
  simp [parseLit_escChars]

theorem engineDeleteSem_keyPredicate (k : String) (tbl : List Record) :
    engineDeleteSem (keyPredicate k) tbl = tbl.filter (fun r => r.key != k) := by
  simp [engineDeleteSem, parseKeyEq_keyPredicate]

-- ---------------------------------------------------------------------------
-- Engine environment, call trace, query batches
-- ---------------------------------------------------------------------------

/-- One engine or filesystem call performed by an operation; recorded in the
operation's trace in the order the source performs them. -/
inductive EngineCall where
  | createDirAll
  | connect
  | tableNames
  | openTable
  | deleteRows (pred : String)
  | addBatch
  | createTable
  | dropTable
  | onlyIf (pred : String)
  | queryExec
deriving DecidableEq, Repr

/-- The columnar shape of one `RecordBatch` coming back from a query:
each column is optionally present (`column_by_name` + downcast can fail),
`metaCol` entries are `none` on SQL null, `distCol` is the `_distance`
column. -/
structure QBatch where
  numRows : Nat
  keyCol : Option (List String)
  textCol : Option (List String)
  metaCol : Option (List (Option String))
  distCol : Option (List Rat)
deriving DecidableEq, Repr

/-- Outcomes of the fallible engine primitives during one operation, plus
the batches the engine streams back for queries.  Every call site in the
source has its own field (`preOpen`/`preDelete` are `store`'s best-effort
pre-upsert open and delete; `openTable` is every other `open_table_unsafe`
call; `rowDelete` is `delete`'s predicate delete). -/
structure Env where
  createDir : Except String Unit
  connect : Except String Unit
  tableNames : Except String Unit
  preOpen : Except String Unit
  preDelete : Except String Unit
  openTable : Except String Unit
  add : Except String Unit
  drop : Except String Unit
  create : Except String Unit
  nearest : Except String Unit
  exec : Except String Unit
  collect : Except String Unit
  rowDelete : Except String Unit
  queryBatches : List QBatch
  listBatches : List QBatch
deriving Repr

/-- The environment in which every engine primitive succeeds and queries
stream no rows: the behaviour of a healthy engine over an empty result. -/
def Env.allOk : Env :=
  { createDir := .ok (), connect := .ok (), tableNames := .ok ()
    preOpen := .ok (), preDelete := .ok (), openTable := .ok ()
    add := .ok (), drop := .ok (), create := .ok ()
    nearest := .ok (), exec := .ok (), collect := .ok ()
    rowDelete := .ok (), queryBatches := [], listBatches := [] }

/-- The value an operation returns: its `Result`, the table state it
leaves behind, and the engine calls it performed. -/
structure OpResult (α : Type) where
  result : Except LanceError α
  state : DBState
  trace : List EngineCall

/-- The names the engine reports for `db.table_names()`. -/
def tableNamesOf (st : DBState) : List String :=
  match st.memories with
  | some _ => [DEFAULT_TABLE]
  | none => []

-- ---------------------------------------------------------------------------
-- `open` (`LanceDBHandle::open`, lines 94-117)
-- ---------------------------------------------------------------------------

/-- `open(db_path, embedding_dim)`: dimension validation, then
`create_dir_all`, then one connection attempt. -/
def openRun (env : Env) (db_path : String) (embedding_dim : Int) :
    Except LanceError HandleCfg × List EngineCall :=
  if embedding_dim ≤ 0 then
    (.error (.SchemaError ("embedding_dim must be > 0, got " ++ toString embedding_dim)), [])
  else
    match env.createDir with
    | .error e =>
      (.error (.ConnectionFailed ("Cannot create db directory: " ++ e)), [.createDirAll])
    | .ok _ =>
      match env.connect with
      | .error e => (.error (.ConnectionFailed e), [.createDirAll, .connect])
      | .ok _ => (.ok ⟨db_path, embedding_dim⟩, [.createDirAll, .connect])

-- ---------------------------------------------------------------------------
-- `store` (`LanceDBHandle::store`, lines 120-205)
-- ---------------------------------------------------------------------------

/-- `make_batch` for the single-row batch `store` builds: fails with
`InsertError` when the columns cannot form a batch (embedding buffer not
one row of the fixed width). -/
def makeBatch (h : HandleCfg) (key agent_id text : String) (embedding : List Rat)
    (metadata : Option String) (now : Int) : Except LanceError Record :=
  if embedding.length = i32AsUsize h.embedding_dim then
    .ok ⟨key, agent_id, text, embedding, metadata, now⟩
  else
    .error (.InsertError "Failed to create record batch: column length mismatch")

/-- `store`'s best-effort pre-upsert delete (lines 141-146): `if let
Ok(table) = open_table_unsafe(..)` — the open succeeds only when the
table exists and the engine open succeeds — then `let _ = table.delete(..)`
with the result discarded. -/
def storePre (env : Env) (pred : String) (st : DBState) : DBState × List EngineCall :=
  match st.memories with
  | none => (⟨none⟩, [.openTable])
  | some tbl =>
    match env.preOpen with
    | .error _ => (⟨some tbl⟩, [.openTable])
    | .ok _ =>
      match env.preDelete with
      | .ok _ => (⟨some (engineDeleteSem pred tbl)⟩, [.openTable, .deleteRows pred])
      | .error _ => (⟨some tbl⟩, [.openTable, .deleteRows pred])

/-- `store`'s table_names check and create-or-append branch (lines
162-202), including the corrupted-table recovery path in which the drop's
result is discarded (`let _ = db.drop_table(..)`). -/
def storeFinish (env : Env) (rec : Record) (preSt : DBState) (tr : List EngineCall) :
    OpResult Unit :=
  match env.tableNames with
  | .error e => ⟨.error (.TableError e), preSt, tr ++ [.tableNames]⟩
  | .ok _ =>
    match preSt.memories with
    | some tbl =>
      match env.openTable with
      | .ok _ =>
        match env.add with
        | .ok _ =>
          ⟨.ok (), ⟨some (tbl ++ [rec])⟩, tr ++ [.tableNames, .openTable, .addBatch]⟩
        | .error e =>
          ⟨.error (.InsertError e), ⟨some tbl⟩, tr ++ [.tableNames, .openTable, .addBatch]⟩
      | .error _ =>
        match env.create with
        | .ok _ =>
          ⟨.ok (), ⟨some [rec]⟩, tr ++ [.tableNames, .openTable, .dropTable, .createTable]⟩
        | .error e =>
          ⟨.error (.TableError e),
            (match env.drop with | .ok _ => ⟨none⟩ | .error _ => ⟨some tbl⟩),
            tr ++ [.tableNames, .openTable, .dropTable, .createTable]⟩
    | none =>
      match env.create with
      | .ok _ => ⟨.ok (), ⟨some [rec]⟩, tr ++ [.tableNames, .createTable]⟩
      | .error e => ⟨.error (.TableError e), preSt, tr ++ [.tableNames, .createTable]⟩

/-- `store(key, agent_id, text, embedding, metadata)`; `now` is the
wall-clock millisecond value `chrono_now_ms()` returns. -/
def storeRun (h : HandleCfg) (env : Env) (st : DBState)
    (key agent_id text : String) (embedding : List Rat)
    (metadata : Option String) (now : Int) : OpResult Unit :=
  if embedding.length ≠ i32AsUsize h.embedding_dim then
    ⟨.error (.InsertError ("embedding length " ++ toString embedding.length ++
      " != expected " ++ toString h.embedding_dim)), st, []⟩
  else
    match env.connect with
    | .error e => ⟨.error (.ConnectionFailed e), st, [.connect]⟩
    | .ok _ =>
      let pre := storePre env (keyPredicate key) st
      match makeBatch h key agent_id text embedding metadata now with
      | .error err => ⟨.error err, pre.1, .connect :: pre.2⟩
      | .ok rec => storeFinish env rec pre.1 (.connect :: pre.2)

-- ---------------------------------------------------------------------------
-- `search` (`LanceDBHandle::search`, lines 209-306)
-- ---------------------------------------------------------------------------

/-- The per-batch result extraction loop (lines 268-303): a batch whose
`key` or `text` column is unreadable is skipped; per row, score is
`1.0 - distance` when the `_distance` column is present and `0.0`
otherwise, and metadata is `None` when null. -/
def extractBatch (b : QBatch) : List SearchResult :=
  match b.keyCol, b.textCol with
  | some ks, some ts =>
    (List.range b.numRows).map (fun i =>
      { key := ks.getD i ""
        text := ts.getD i ""
        score :=
          match b.distCol with
          | some ds => 1 - ds.getD i 0
          | none => 0
        metadata :=
          match b.metaCol with
          | some ms => ms.getD i none
          | none => none })
  | _, _ => []

/-- All rows extracted from the streamed batches, in stream order. -/
def extractResults (batches : List QBatch) : List SearchResult :=
  batches.flatMap extractBatch

/-- `search(query_vector, limit, filter)`. -/
def searchRun (h : HandleCfg) (env : Env) (st : DBState)
    (query_vector : List Rat) (limit : Nat) (filter : Option String) :
    OpResult (List SearchResult) :=
  if query_vector.length ≠ i32AsUsize h.embedding_dim then
    ⟨.error (.QueryError ("query_vector length " ++ toString query_vector.length ++
      " != expected " ++ toString h.embedding_dim)), st, []⟩
  else
    match env.connect with
    | .error e => ⟨.error (.ConnectionFailed e), st, [.connect]⟩
    | .ok _ =>
      match env.tableNames with
      | .error e => ⟨.error (.TableError e), st, [.connect, .tableNames]⟩
      | .ok _ =>
        match st.memories with
        | none => ⟨.ok [], st, [.connect, .tableNames]⟩
        | some _ =>
          match env.openTable with
          | .error e => ⟨.error (.TableError e), st, [.connect, .tableNames, .openTable]⟩
          | .ok _ =>
            match env.nearest with
            | .error e =>
              ⟨.error (.QueryError e), st, [.connect, .tableNames, .openTable]⟩
            | .ok _ =>
              match env.exec with
              | .error e =>
                ⟨.error (.QueryError e), st,
                  [.connect, .tableNames, .openTable, .queryExec]⟩
              | .ok _ =>
                match env.collect with
                | .error e =>
                  ⟨.error (.QueryError e), st,
                    [.connect, .tableNames, .openTable, .queryExec]⟩
                | .ok _ =>
                  ⟨.ok (extractResults env.queryBatches), st,
                    [.connect, .tableNames, .openTable, .queryExec]⟩

-- ---------------------------------------------------------------------------
-- `delete` (`LanceDBHandle::delete`, lines 309-334)
-- ---------------------------------------------------------------------------

/-- `delete(key)`. -/
def deleteRun (h : HandleCfg) (env : Env) (st : DBState) (key : String) :
    OpResult Unit :=
  match env.connect with
  | .error e => ⟨.error (.ConnectionFailed e), st, [.connect]⟩
  | .ok _ =>
    match env.tableNames with
    | .error e => ⟨.error (.TableError e), st, [.connect, .tableNames]⟩
    | .ok _ =>
      match st.memories with
      | none => ⟨.ok (), st, [.connect, .tableNames]⟩
      | some tbl =>
        match env.openTable with
        | .error e => ⟨.error (.TableError e), st, [.connect, .tableNames, .openTable]⟩
        | .ok _ =>
          match env.rowDelete with
          | .error e =>
            ⟨.error (.DeleteError e), st,
              [.connect, .tableNames, .openTable, .deleteRows (keyPredicate key)]⟩
          | .ok _ =>
            ⟨.ok (), ⟨some (engineDeleteSem (keyPredicate key) tbl)⟩,
              [.connect, .tableNames, .openTable, .deleteRows (keyPredicate key)]⟩

-- ---------------------------------------------------------------------------
-- `list` (`LanceDBHandle::list`, lines 337-396)
-- ---------------------------------------------------------------------------

/-- The key-collection loop of `list` (lines 383-393): batches missing a
readable `key` column are skipped, all entries of the present columns are
taken. -/
def extractKeys (batches : List QBatch) : List String :=
  batches.flatMap (fun b =>
    match b.keyCol with
    | some arr => arr
    | none => [])

/-- `list(prefixArg, limit)`. -/
def listRun (h : HandleCfg) (env : Env) (st : DBState)
    (prefixArg : Option String) (limit : Option Nat) : OpResult (List String) :=
  match env.connect with
  | .error e => ⟨.error (.ConnectionFailed e), st, [.connect]⟩
  | .ok _ =>
    match env.tableNames with
    | .error e => ⟨.error (.TableError e), st, [.connect, .tableNames]⟩
    | .ok _ =>
      match st.memories with
      | none => ⟨.ok [], st, [.connect, .tableNames]⟩
      | some _ =>
        match env.openTable with
        | .error e => ⟨.error (.TableError e), st, [.connect, .tableNames, .openTable]⟩
        | .ok _ =>
          let tr := [EngineCall.connect, .tableNames, .openTable] ++
            (match prefixArg with
             | some p => [EngineCall.onlyIf (startsWithPredicate p)]
             | none => []) ++ [EngineCall.queryExec]
          match env.exec with
          | .error e => ⟨.error (.QueryError e), st, tr⟩
          | .ok _ =>
            match env.collect with
            | .error e => ⟨.error (.QueryError e), st, tr⟩
            | .ok _ => ⟨.ok (extractKeys env.listBatches), st, tr⟩

-- ---------------------------------------------------------------------------
-- `clear` (`LanceDBHandle::clear`, lines 399-420)
-- ---------------------------------------------------------------------------

/-- `clear(collection)`: drops the named table (default `DEFAULT_TABLE`)
when it exists, otherwise succeeds without touching anything. -/
def clearRun (h : HandleCfg) (env : Env) (st : DBState)
    (collection : Option String) : OpResult Unit :=
  match env.connect with
  | .error e => ⟨.error (.ConnectionFailed e), st, [.connect]⟩
  | .ok _ =>
    match env.tableNames with
    | .error e => ⟨.error (.TableError e), st, [.connect, .tableNames]⟩
    | .ok _ =>
      if (tableNamesOf st).contains (collection.getD DEFAULT_TABLE) then
        match env.drop with
        | .error e => ⟨.error (.TableError e), st, [.connect, .tableNames, .dropTable]⟩
        | .ok _ => ⟨.ok (), ⟨none⟩, [.connect, .tableNames, .dropTable]⟩
      else
        ⟨.ok (), st, [.connect, .tableNames]⟩

-- ---------------------------------------------------------------------------
-- Behaviour of `store` under a healthy engine
-- ---------------------------------------------------------------------------

/-- The rows surviving `store`'s pre-upsert delete of `k` under a healthy
engine: the previous rows without `k` when the table exists, nothing
otherwise. -/
def upsertBase (st : DBState) (k : String) : List Record :=
  match st.memories with
  | some tbl => tbl.filter (fun r => r.key != k)
  | none => []

theorem storeRun_allOk_result (h : HandleCfg) (st : DBState) (k a t : String)
    (e : List Rat) (m : Option String) (n : Int)
    (hlen : e.length = i32AsUsize h.embedding_dim) :
    (storeRun h Env.allOk st k a t e m n).result = .ok () := by
  obtain ⟨mem⟩ := st
  cases mem <;>
    simp [storeRun, hlen, Env.allOk, storePre, makeBatch, storeFinish]

theorem storeRun_allOk_state (h : HandleCfg) (st : DBState) (k a t : String)
    (e : List Rat) (m : Option String) (n : Int)
    (hlen : e.length = i32AsUsize h.embedding_dim) :
    (storeRun h Env.allOk st k a t e m n).state =
      ⟨some (upsertBase st k ++ [⟨k, a, t, e, m, n⟩])⟩ := by
  obtain ⟨mem⟩ := st
  cases mem <;>
    simp [storeRun, hlen, Env.allOk, storePre, makeBatch, storeFinish,
      engineDeleteSem_keyPredicate, upsertBase]

theorem filter_ne_filter_eq (tbl : List Record) (k : String) :
    (tbl.filter (fun r => r.key != k)).filter (fun r => r.key == k) =
      ([] : List Record) := by
  induction tbl with
  | nil => rfl
  | cons r rs ih =>
    by_cases hr : r.key = k <;> simp [List.filter_cons, hr, ih]

theorem filter_eq_after_upsert (tbl : List Record) (k : String) (rec : Record)
    (hrk : rec.key = k) :
    ((tbl.filter (fun r => r.key != k)) ++ [rec]).filter (fun r => r.key == k) =
      [rec] := by
  rw [List.filter_append, filter_ne_filter_eq]
  simp [hrk]

/-- **C1.** For every key `k`, two sequential `store(k, ...)` calls under a
healthy engine (both complete successfully) leave exactly one live record
with key `k`, carrying the second call's `text`, `embedding` and
`metadata` (and `agent_id`/`created_at`). -/
theorem store_twice_leaves_single_record (h : HandleCfg) (st : DBState)
    (k a₁ t₁ a₂ t₂ : String) (e₁ e₂ : List Rat) (m₁ m₂ : Option String)
    (n₁ n₂ : Int)
    (hlen₁ : e₁.length = i32AsUsize h.embedding_dim)
    (hlen₂ : e₂.length = i32AsUsize h.embedding_dim) :
    (storeRun h Env.allOk st k a₁ t₁ e₁ m₁ n₁).result = .ok () ∧
    (storeRun h Env.allOk (storeRun h Env.allOk st k a₁ t₁ e₁ m₁ n₁).state
      k a₂ t₂ e₂ m₂ n₂).result = .ok () ∧
    ((storeRun h Env.allOk (storeRun h Env.allOk st k a₁ t₁ e₁ m₁ n₁).state
        k a₂ t₂ e₂ m₂ n₂).state.memories.getD []).filter
      (fun r => r.key == k) = [⟨k, a₂, t₂, e₂, m₂, n₂⟩] := by
  refine ⟨storeRun_allOk_result h st k a₁ t₁ e₁ m₁ n₁ hlen₁,
    storeRun_allOk_result h _ k a₂ t₂ e₂ m₂ n₂ hlen₂, ?_⟩
  rw [storeRun_allOk_state h st k a₁ t₁ e₁ m₁ n₁ hlen₁,
    storeRun_allOk_state h _ k a₂ t₂ e₂ m₂ n₂ hlen₂]
  simp only [upsertBase, Option.getD_some]
  exact filter_eq_after_upsert _ k _ rfl

/-- Witness for C1 at a concrete input: dimension 1, a table already
holding an unrelated row and an old row for `"k"`. -/
theorem store_twice_leaves_single_record_witness :
    (storeRun ⟨"db", 1⟩ Env.allOk
      ⟨some [⟨"k", "x", "old", [5], none, 1⟩, ⟨"other", "x", "keep", [7], none, 2⟩]⟩
      "k" "a1" "t1" [2] none 10).result = .ok () ∧
    (storeRun ⟨"db", 1⟩ Env.allOk
      (storeRun ⟨"db", 1⟩ Env.allOk
        ⟨some [⟨"k", "x", "old", [5], none, 1⟩, ⟨"other", "x", "keep", [7], none, 2⟩]⟩
        "k" "a1" "t1" [2] none 10).state
      "k" "a2" "t2" [3] (some "meta2") 20).result = .ok () ∧
    ((storeRun ⟨"db", 1⟩ Env.allOk
      (storeRun ⟨"db", 1⟩ Env.allOk
        ⟨some [⟨"k", "x", "old", [5], none, 1⟩, ⟨"other", "x", "keep", [7], none, 2⟩]⟩
        "k" "a1" "t1" [2] none 10).state
      "k" "a2" "t2" [3] (some "meta2") 20).state.memories.getD []).filter
      (fun r => r.key == "k") = [⟨"k", "a2", "t2", [3], some "meta2", 20⟩] :=
  store_twice_leaves_single_record ⟨"db", 1⟩
    ⟨some [⟨"k", "x", "old", [5], none, 1⟩, ⟨"other", "x", "keep", [7], none, 2⟩]⟩
    "k" "a1" "t1" "a2" "t2" [2] [3] none (some "meta2") 10 20
    (by decide) (by decide)

-- ---------------------------------------------------------------------------
-- Structure of `store`'s control flow
-- ---------------------------------------------------------------------------

theorem storeRun_eq_finish (h : HandleCfg) (env : Env) (st : DBState)
    (key a t : String) (e : List Rat) (m : Option String) (n : Int)
    (hlen : e.length = i32AsUsize h.embedding_dim) (hc : env.connect = .ok ()) :
    storeRun h env st key a t e m n =
      storeFinish env ⟨key, a, t, e, m, n⟩ (storePre env (keyPredicate key) st).1
        (.connect :: (storePre env (keyPredicate key) st).2) := by
  simp [storeRun, hlen, hc, makeBatch]

theorem storePre_memories_isSome (env : Env) (pred : String) (st : DBState) :
    ((storePre env pred st).1).memories.isSome = st.memories.isSome := by
  obtain ⟨mem⟩ := st
  cases mem with
  | none => simp [storePre]
  | some tbl =>
    cases ho : env.preOpen with
    | error e => simp [storePre, ho]
    | ok u => cases hd : env.preDelete <;> simp [storePre, ho, hd]

theorem storeFinish_result_congr (env₁ env₂ : Env) (rec : Record)
    (s₁ s₂ : DBState) (tr₁ tr₂ : List EngineCall)
    (htn : env₁.tableNames = env₂.tableNames)
    (hot : env₁.openTable = env₂.openTable)
    (had : env₁.add = env₂.add)
    (hcr : env₁.create = env₂.create)
    (hs : s₁.memories.isSome = s₂.memories.isSome) :
    (storeFinish env₁ rec s₁ tr₁).result = (storeFinish env₂ rec s₂ tr₂).result := by
  obtain ⟨m₁⟩ := s₁
  obtain ⟨m₂⟩ := s₂
  cases m₁ with
  | none =>
    cases m₂ with
    | some t2 => exact absurd hs (by simp)
    | none =>
      cases h1 : env₂.tableNames <;> cases h4 : env₂.create <;>
        simp [storeFinish, htn, hcr, h1, h4]
  | some t1 =>
    cases m₂ with
    | none => exact absurd hs (by simp)
    | some t2 =>
      cases h1 : env₂.tableNames <;> cases h2 : env₂.openTable <;>
        cases h3 : env₂.add <;> cases h4 : env₂.create <;>
          simp [storeFinish, htn, hot, had, hcr, h1, h2, h3, h4]

/-- **C8.** `store`'s pre-upsert delete is best-effort: the outcome of the
best-effort open (`preOpen`) and of the predicate delete (`preDelete`) has
no influence on `store`'s result — in particular a failure of that step
alone never makes `store` return an error, and `store` proceeds to the
write either way. -/
theorem store_pre_delete_best_effort (h : HandleCfg) (env : Env) (st : DBState)
    (key agent_id text : String) (embedding : List Rat)
    (metadata : Option String) (now : Int) (o₁ o₂ : Except String Unit) :
    (storeRun h { env with preOpen := o₁, preDelete := o₂ } st key agent_id text
      embedding metadata now).result =
    (storeRun h env st key agent_id text embedding metadata now).result := by
  obtain ⟨cd, co, tn, po, pd, ot, ad, dr, cr, nea, exe, col, rd, qb, lb⟩ := env
  by_cases hlen : embedding.length = i32AsUsize h.embedding_dim
  · cases co with
    | error e => simp [storeRun, hlen]
    | ok u =>
      cases u
      have eL := storeRun_eq_finish h
        { Env.mk cd (.ok ()) tn po pd ot ad dr cr nea exe col rd qb lb with
          preOpen := o₁, preDelete := o₂ } st key agent_id text embedding metadata
        now hlen rfl
      have eR := storeRun_eq_finish h
        (Env.mk cd (.ok ()) tn po pd ot ad dr cr nea exe col rd qb lb)
        st key agent_id text embedding metadata now hlen rfl
      rw [eL, eR]
      exact storeFinish_result_congr _ _ _ _ _ _ _ rfl rfl rfl rfl
        (by rw [storePre_memories_isSome, storePre_memories_isSome])
  · simp [storeRun, hlen]

-- ---------------------------------------------------------------------------
-- The corrupted-table recovery path of `store`
-- ---------------------------------------------------------------------------

/-- **C2 counterexample.** In the corrupted-table path (table present, open
fails) with the drop failing and the recreate succeeding, `store` returns
`Ok` — the drop's result is discarded (`let _ = db.drop_table(..)`), so a
drop failure does not produce `TableError` as the claim states. -/
theorem store_recovery_drop_failure_counterexample :
    (storeRun ⟨"db", 1⟩
      { Env.allOk with openTable := .error "corrupt", drop := .error "drop failed" }
      ⟨some [⟨"old", "x", "o", [5], none, 1⟩]⟩ "k" "a" "t" [2] none 9).result =
        .ok () ∧
    (storeRun ⟨"db", 1⟩
      { Env.allOk with openTable := .error "corrupt", drop := .error "drop failed" }
      ⟨some [⟨"old", "x", "o", [5], none, 1⟩]⟩ "k" "a" "t" [2] none 9).state =
        ⟨some [⟨"k", "a", "t", [2], none, 9⟩]⟩ := by
  constructor <;> rfl

/-- **C2 (amended).** In `store`'s corrupted-table recovery path (the
default table exists but opening it fails), `store` drops the table with
the drop's own result discarded and recreates it from only the single new
record batch; `store` fails with `TableError` exactly when the recreate
fails (a drop failure alone never surfaces as an error). -/
theorem store_corrupted_recovery (h : HandleCfg) (env : Env) (st : DBState)
    (tbl : List Record) (key a t : String) (e : List Rat) (m : Option String)
    (n : Int)
    (hlen : e.length = i32AsUsize h.embedding_dim)
    (hc : env.connect = .ok ()) (htn : env.tableNames = .ok ())
    (hmem : st.memories = some tbl) (hopen : ∃ msg, env.openTable = .error msg) :
    (env.create = .ok () →
      (storeRun h env st key a t e m n).result = .ok () ∧
      (storeRun h env st key a t e m n).state = ⟨some [⟨key, a, t, e, m, n⟩]⟩) ∧
    (∀ msg, env.create = .error msg →
      (storeRun h env st key a t e m n).result = .error (.TableError msg)) := by
  obtain ⟨emsg, hopen⟩ := hopen
  have hps := storePre_memories_isSome env (keyPredicate key) st
  rw [hmem] at hps
  obtain ⟨tbl2, htbl2⟩ := Option.isSome_iff_exists.mp hps
  rw [storeRun_eq_finish h env st key a t e m n hlen hc]
  refine ⟨fun hcr => ?_, fun msg hcr => ?_⟩ <;>
    simp [storeFinish, htn, htbl2, hopen, hcr]

/-- Witness for C2's amended theorem: with the table present, open failing
and the recreate succeeding, `store` succeeds and the table holds exactly
the new record; with the recreate failing, `store` returns `TableError`. -/
theorem store_corrupted_recovery_witness :
    (storeRun ⟨"db", 1⟩ { Env.allOk with openTable := .error "corrupt" }
      ⟨some [⟨"old", "x", "o", [5], none, 1⟩]⟩ "k" "a" "t" [2] none 9).result =
        .ok () ∧
    (storeRun ⟨"db", 1⟩ { Env.allOk with openTable := .error "corrupt" }
      ⟨some [⟨"old", "x", "o", [5], none, 1⟩]⟩ "k" "a" "t" [2] none 9).state =
        ⟨some [⟨"k", "a", "t", [2], none, 9⟩]⟩ ∧
    (storeRun ⟨"db", 1⟩
      { Env.allOk with openTable := .error "corrupt", create := .error "create failed" }
      ⟨some [⟨"old", "x", "o", [5], none, 1⟩]⟩ "k" "a" "t" [2] none 9).result =
        .error (.TableError "create failed") :=
  ⟨((store_corrupted_recovery ⟨"db", 1⟩ { Env.allOk with openTable := .error "corrupt" }
      ⟨some [⟨"old", "x", "o", [5], none, 1⟩]⟩ [⟨"old", "x", "o", [5], none, 1⟩]
      "k" "a" "t" [2] none 9 (by decide) rfl rfl rfl ⟨"corrupt", rfl⟩).1 rfl).1,
   ((store_corrupted_recovery ⟨"db", 1⟩ { Env.allOk with openTable := .error "corrupt" }
      ⟨some [⟨"old", "x", "o", [5], none, 1⟩]⟩ [⟨"old", "x", "o", [5], none, 1⟩]
      "k" "a" "t" [2] none 9 (by decide) rfl rfl rfl ⟨"corrupt", rfl⟩).1 rfl).2,
   (store_corrupted_recovery ⟨"db", 1⟩
      { Env.allOk with openTable := .error "corrupt", create := .error "create failed" }
      ⟨some [⟨"old", "x", "o", [5], none, 1⟩]⟩ [⟨"old", "x", "o", [5], none, 1⟩]
      "k" "a" "t" [2] none 9 (by decide) rfl rfl rfl ⟨"corrupt", rfl⟩).2
      "create failed" rfl⟩

-- ---------------------------------------------------------------------------
-- Length validation happens before any I/O
-- ---------------------------------------------------------------------------

/-- **C4.** An embedding of the wrong length makes `store` fail with
`InsertError` with no engine call performed and the state untouched; a
query vector of the wrong length does the same for `search` with
`QueryError`. -/
theorem length_mismatch_no_io (h : HandleCfg) (env : Env) (st : DBState)
    (key a t : String) (e : List Rat) (m : Option String) (n : Int)
    (qv : List Rat) (lim : Nat) (f : Option String)
    (hse : e.length ≠ i32AsUsize h.embedding_dim)
    (hsq : qv.length ≠ i32AsUsize h.embedding_dim) :
    storeRun h env st key a t e m n =
      ⟨.error (.InsertError ("embedding length " ++ toString e.length ++
        " != expected " ++ toString h.embedding_dim)), st, []⟩ ∧
    searchRun h env st qv lim f =
      ⟨.error (.QueryError ("query_vector length " ++ toString qv.length ++
        " != expected " ++ toString h.embedding_dim)), st, []⟩ := by
  constructor <;> simp [storeRun, searchRun, hse, hsq]

/-- Witness for C4: dimension 4, a one-element embedding and a two-element
query vector. -/
theorem length_mismatch_no_io_witness :
    storeRun ⟨"db", 4⟩ Env.allOk ⟨none⟩ "k" "a" "t" [1] none 3 =
      ⟨.error (.InsertError "embedding length 1 != expected 4"), ⟨none⟩, []⟩ ∧
    searchRun ⟨"db", 4⟩ Env.allOk ⟨none⟩ [1, 2] 5 none =
      ⟨.error (.QueryError "query_vector length 2 != expected 4"), ⟨none⟩, []⟩ :=
  length_mismatch_no_io ⟨"db", 4⟩ Env.allOk ⟨none⟩ "k" "a" "t" [1] none 3
    [1, 2] 5 none (by decide) (by decide)

-- ---------------------------------------------------------------------------
-- Error variants on the `search` path
-- ---------------------------------------------------------------------------

/-- **C3 counterexample.** When the table exists but opening it fails,
`search` fails with `TableError`, not `QueryError`: `open_table_unsafe`
maps its failure to `TableError` (lines 452-454) and `search` propagates
it with `?` (line 239). -/
theorem search_open_failure_counterexample :
    (searchRun ⟨"db", 1⟩ { Env.allOk with openTable := .error "boom" }
      ⟨some [⟨"k", "a", "t", [1], none, 0⟩]⟩ [1] 5 none).result =
        .error (.TableError "boom") ∧
    isQueryErrorResult ((searchRun ⟨"db", 1⟩
      { Env.allOk with openTable := .error "boom" }
      ⟨some [⟨"k", "a", "t", [1], none, 0⟩]⟩ [1] 5 none).result) = false := by
  constructor <;> rfl

/-- **C3 (amended).** With the table present, a failed table open makes
`search` fail with `TableError`; a failed query construction, execution or
stream collection makes it fail with `QueryError`. -/
theorem search_error_variants (h : HandleCfg) (env : Env) (st : DBState)
    (tbl : List Record) (qv : List Rat) (lim : Nat) (f : Option String)
    (hq : qv.length = i32AsUsize h.embedding_dim)
    (hc : env.connect = .ok ()) (htn : env.tableNames = .ok ())
    (hmem : st.memories = some tbl) :
    (∀ e, env.openTable = .error e →
      (searchRun h env st qv lim f).result = .error (.TableError e)) ∧
    (env.openTable = .ok () → ∀ e, env.nearest = .error e →
      (searchRun h env st qv lim f).result = .error (.QueryError e)) ∧
    (env.openTable = .ok () → env.nearest = .ok () → ∀ e, env.exec = .error e →
      (searchRun h env st qv lim f).result = .error (.QueryError e)) ∧
    (env.openTable = .ok () → env.nearest = .ok () → env.exec = .ok () →
      ∀ e, env.collect = .error e →
      (searchRun h env st qv lim f).result = .error (.QueryError e)) := by
  refine ⟨?_, ?_, ?_, ?_⟩ <;> intros <;>
    simp [searchRun, hq, hc, htn, hmem, *]

/-- Witness for C3's amended theorem: each failing stage at a concrete
input produces the stated variant. -/
theorem search_error_variants_witness :
    (searchRun ⟨"db", 1⟩ { Env.allOk with openTable := .error "o" }
      ⟨some []⟩ [1] 5 none).result = .error (.TableError "o") ∧
    (searchRun ⟨"db", 1⟩ { Env.allOk with nearest := .error "n" }
      ⟨some []⟩ [1] 5 none).result = .error (.QueryError "n") ∧
    (searchRun ⟨"db", 1⟩ { Env.allOk with exec := .error "e" }
      ⟨some []⟩ [1] 5 none).result = .error (.QueryError "e") ∧
    (searchRun ⟨"db", 1⟩ { Env.allOk with collect := .error "c" }
      ⟨some []⟩ [1] 5 none).result = .error (.QueryError "c") :=
  ⟨(search_error_variants ⟨"db", 1⟩ { Env.allOk with openTable := .error "o" }
      ⟨some []⟩ [] [1] 5 none (by decide) rfl rfl rfl).1 "o" rfl,
   (search_error_variants ⟨"db", 1⟩ { Env.allOk with nearest := .error "n" }
      ⟨some []⟩ [] [1] 5 none (by decide) rfl rfl rfl).2.1 rfl "n" rfl,
   (search_error_variants ⟨"db", 1⟩ { Env.allOk with exec := .error "e" }
      ⟨some []⟩ [] [1] 5 none (by decide) rfl rfl rfl).2.2.1 rfl rfl "e" rfl,
   (search_error_variants ⟨"db", 1⟩ { Env.allOk with collect := .error "c" }
      ⟨some []⟩ [] [1] 5 none (by decide) rfl rfl rfl).2.2.2 rfl rfl rfl "c" rfl⟩

-- ---------------------------------------------------------------------------
-- Absent table / absent record behaviour
-- ---------------------------------------------------------------------------

/-- **C5.** When the default table does not exist, `search` and `list`
return `Ok` with an empty list and `delete` and `clear` succeed without
touching anything; and deleting an absent record from an existing table
succeeds as well — table or record absence never surfaces as an error. -/
theorem absent_table_never_errors (h : HandleCfg) (env : Env) (st : DBState)
    (qv : List Rat) (lim : Nat) (f : Option String) (prefOpt : Option String)
    (limOpt : Option Nat) (key : String)
    (hq : qv.length = i32AsUsize h.embedding_dim)
    (hc : env.connect = .ok ()) (htn : env.tableNames = .ok ()) :
    (st.memories = none →
      searchRun h env st qv lim f = ⟨.ok [], st, [.connect, .tableNames]⟩ ∧
      listRun h env st prefOpt limOpt = ⟨.ok [], st, [.connect, .tableNames]⟩ ∧
      deleteRun h env st key = ⟨.ok (), st, [.connect, .tableNames]⟩ ∧
      clearRun h env st none = ⟨.ok (), st, [.connect, .tableNames]⟩) ∧
    (∀ tbl, st.memories = some tbl → env.openTable = .ok () →
      env.rowDelete = .ok () → (deleteRun h env st key).result = .ok ()) := by
  constructor
  · intro hmem
    refine ⟨?_, ?_, ?_, ?_⟩ <;>
      simp [searchRun, listRun, deleteRun, clearRun, hq, hc, htn, hmem,
        tableNamesOf]
  · intro tbl hmem hot hrd
    simp [deleteRun, hc, htn, hmem, hot, hrd]

/-- Witness for C5: the empty store and a store holding only a record for
another key. -/
theorem absent_table_never_errors_witness :
    searchRun ⟨"db", 1⟩ Env.allOk ⟨none⟩ [1] 5 none =
      ⟨.ok [], ⟨none⟩, [.connect, .tableNames]⟩ ∧
    listRun ⟨"db", 1⟩ Env.allOk ⟨none⟩ none none =
      ⟨.ok [], ⟨none⟩, [.connect, .tableNames]⟩ ∧
    deleteRun ⟨"db", 1⟩ Env.allOk ⟨none⟩ "missing" =
      ⟨.ok (), ⟨none⟩, [.connect, .tableNames]⟩ ∧
    clearRun ⟨"db", 1⟩ Env.allOk ⟨none⟩ none =
      ⟨.ok (), ⟨none⟩, [.connect, .tableNames]⟩ ∧
    (deleteRun ⟨"db", 1⟩ Env.allOk ⟨some [⟨"other", "a", "t", [1], none, 0⟩]⟩
      "missing").result = .ok () := by
  have h1 := (absent_table_never_errors ⟨"db", 1⟩ Env.allOk ⟨none⟩ [1] 5 none
    none none "missing" (by decide) rfl rfl).1 rfl
  have h2 := (absent_table_never_errors ⟨"db", 1⟩ Env.allOk
    ⟨some [⟨"other", "a", "t", [1], none, 0⟩]⟩ [1] 5 none none none "missing"
    (by decide) rfl rfl).2 [⟨"other", "a", "t", [1], none, 0⟩] rfl rfl rfl
  exact ⟨h1.1, h1.2.1, h1.2.2.1, h1.2.2.2, h2⟩

-- ---------------------------------------------------------------------------
-- Score derivation in `search`
-- ---------------------------------------------------------------------------

/-- **C6.** A successful `search` returns exactly the rows extracted from
the streamed batches, and for each row the score is `1.0 - d` when the
row's batch carries a `_distance` column (`d` being the row's entry) and
exactly `0.0` when no distance is available. -/
theorem search_score_from_distance (h : HandleCfg) (env : Env) (st : DBState)
    (qv : List Rat) (lim : Nat) (f : Option String) (tbl : List Record)
    (b : QBatch) (i : Nat) (ks ts : List String)
    (hq : qv.length = i32AsUsize h.embedding_dim)
    (hc : env.connect = .ok ()) (htn : env.tableNames = .ok ())
    (hmem : st.memories = some tbl)
    (ho : env.openTable = .ok ()) (hn : env.nearest = .ok ())
    (he : env.exec = .ok ()) (hcol : env.collect = .ok ()) :
    (searchRun h env st qv lim f).result = .ok (extractResults env.queryBatches) ∧
    (b.keyCol = some ks → b.textCol = some ts → i < b.numRows →
      (∀ ds, b.distCol = some ds →
        ((extractBatch b).getD i default).score = 1 - ds.getD i 0) ∧
      (b.distCol = none → ((extractBatch b).getD i default).score = 0)) := by
  constructor
  · simp [searchRun, hq, hc, htn, hmem, ho, hn, he, hcol]
  · intro hk htx hi
    constructor
    · intro ds hds
      simp [extractBatch, hk, htx, hds, List.getD_eq_getElem?_getD,
        List.getElem?_map, List.getElem?_range, hi]
    · intro hds
      simp [extractBatch, hk, htx, hds, List.getD_eq_getElem?_getD,
        List.getElem?_map, List.getElem?_range, hi]

/-- A one-row query batch carrying a distance column. -/
def batchWithDist : QBatch := ⟨1, some ["k"], some ["t"], some [some "m"], some [1/2]⟩

/-- A one-row query batch with no distance column. -/
def batchNoDist : QBatch := ⟨1, some ["k2"], some ["t2"], none, none⟩

/-- Witness for C6 at two concrete batches: with a distance of `1/2` the
score is `1 - 1/2`, with no distance column it is `0`. -/
theorem search_score_from_distance_witness :
    (searchRun ⟨"db", 1⟩ { Env.allOk with queryBatches := [batchWithDist, batchNoDist] }
      ⟨some []⟩ [1] 5 none).result =
      .ok (extractResults ({ Env.allOk with
        queryBatches := [batchWithDist, batchNoDist] } : Env).queryBatches) ∧
    ((extractBatch batchWithDist).getD 0 default).score = 1 - [(1 : Rat)/2].getD 0 0 ∧
    ((extractBatch batchNoDist).getD 0 default).score = 0 :=
  ⟨(search_score_from_distance ⟨"db", 1⟩
      { Env.allOk with queryBatches := [batchWithDist, batchNoDist] }
      ⟨some []⟩ [1] 5 none [] batchWithDist 0 ["k"] ["t"]
      (by decide) rfl rfl rfl rfl rfl rfl rfl).1,
   ((search_score_from_distance ⟨"db", 1⟩
      { Env.allOk with queryBatches := [batchWithDist, batchNoDist] }
      ⟨some []⟩ [1] 5 none [] batchWithDist 0 ["k"] ["t"]
      (by decide) rfl rfl rfl rfl rfl rfl rfl).2 rfl rfl (by decide)).1 [(1 : Rat)/2] rfl,
   ((search_score_from_distance ⟨"db", 1⟩
      { Env.allOk with queryBatches := [batchWithDist, batchNoDist] }
      ⟨some []⟩ [1] 5 none [] batchNoDist 0 ["k2"] ["t2"]
      (by decide) rfl rfl rfl rfl rfl rfl rfl).2 rfl rfl (by decide)).2 rfl⟩

-- ---------------------------------------------------------------------------
-- Predicate escaping (spec-side formulation and equivalence)
-- ---------------------------------------------------------------------------

/-- The spec's description of the escaping, as its own recursion: every
single-quote character is doubled, every other character kept. -/
def specDoubledChars : List Char → List Char
  | [] => []
  | c :: cs =>
    if c = quoteChar then quoteChar :: quoteChar :: specDoubledChars cs
    else c :: specDoubledChars cs

/-- String form of `specDoubledChars`. -/
def specDoubled (s : String) : String := String.mk (specDoubledChars s.data)

theorem escChars_eq_specDoubledChars (l : List Char) :
    escChars l = specDoubledChars l := by
  induction l with
  | nil => rfl
  | cons c cs ih =>
    by_cases hc : c = quoteChar <;>
      simp [escChars_cons, specDoubledChars, hc, ih]

/-- **C7.** The predicates the source builds from caller-supplied text
are exactly the stated formats with every single quote doubled before
interpolation: `key = ...` for `store`'s pre-upsert delete and for
`delete`, and `starts_with(key, ...)` for `list`. -/
theorem predicate_escaping_exact (k p : String) :
    keyPredicate k = "key = " ++ quoteStr ++ specDoubled k ++ quoteStr ∧
    startsWithPredicate p =
      "starts_with(key, " ++ quoteStr ++ specDoubled p ++ quoteStr ++ ")" := by
  constructor <;>
    simp [keyPredicate, startsWithPredicate, escapeSQ, specDoubled,
      escChars_eq_specDoubledChars]

-- ---------------------------------------------------------------------------
-- `open` validation and error taxonomy
-- ---------------------------------------------------------------------------

/-- **C9.** `open` fails with `SchemaError` for every dimension `≤ 0`
before any filesystem action; for a positive dimension it first ensures
the store directory exists and fails with `ConnectionFailed` when the
directory creation fails or when the subsequent connection attempt
fails. -/
theorem open_validation_and_errors (env : Env) (db_path : String) (dim : Int) :
    (dim ≤ 0 → openRun env db_path dim =
      (.error (.SchemaError ("embedding_dim must be > 0, got " ++ toString dim)),
        [])) ∧
    (0 < dim → ∀ e, env.createDir = .error e → openRun env db_path dim =
      (.error (.ConnectionFailed ("Cannot create db directory: " ++ e)),
        [.createDirAll])) ∧
    (0 < dim → env.createDir = .ok () → ∀ e, env.connect = .error e →
      openRun env db_path dim =
        (.error (.ConnectionFailed e), [.createDirAll, .connect])) ∧
    (0 < dim → env.createDir = .ok () → env.connect = .ok () →
      openRun env db_path dim = (.ok ⟨db_path, dim⟩, [.createDirAll, .connect])) := by
  refine ⟨fun hle => ?_, fun hpos e hcd => ?_, fun hpos hcd e hc => ?_,
    fun hpos hcd hc => ?_⟩
  · simp [openRun, hle]
  · simp [openRun, not_le.mpr hpos, hcd]
  · simp [openRun, not_le.mpr hpos, hcd, hc]
  · simp [openRun, not_le.mpr hpos, hcd, hc]

/-- Witness for C9: dimension `-1` rejected with no filesystem call, and
for dimension `3` each of the two failure stages and the success path. -/
theorem open_validation_and_errors_witness :
    openRun Env.allOk "p" (-1) =
      (.error (.SchemaError ("embedding_dim must be > 0, got " ++
        toString (-1 : Int))), []) ∧
    openRun { Env.allOk with createDir := .error "d" } "p" 3 =
      (.error (.ConnectionFailed ("Cannot create db directory: " ++ "d")),
        [.createDirAll]) ∧
    openRun { Env.allOk with connect := .error "c" } "p" 3 =
      (.error (.ConnectionFailed "c"), [.createDirAll, .connect]) ∧
    openRun Env.allOk "p" 3 = (.ok ⟨"p", 3⟩, [.createDirAll, .connect]) :=
  ⟨(open_validation_and_errors Env.allOk "p" (-1)).1 (by decide),
   (open_validation_and_errors { Env.allOk with createDir := .error "d" }
     "p" 3).2.1 (by decide) "d" rfl,
   (open_validation_and_errors { Env.allOk with connect := .error "c" }
     "p" 3).2.2.1 (by decide) rfl "c" rfl,
   (open_validation_and_errors Env.allOk "p" 3).2.2.2 (by decide) rfl rfl⟩

-- ---------------------------------------------------------------------------
-- No validation of key / prefixArg contents
-- ---------------------------------------------------------------------------

/-- **C10.** No operation validates caller-supplied key or prefix text:
under a healthy engine `store` accepts the empty-string key — its only
store-side validation being the embedding length check — and writes a
record whose key is the empty string; `delete` and `list` accept empty
strings the same way. -/
theorem no_key_validation (h : HandleCfg) (st : DBState) (a t : String)
    (e : List Rat) (m : Option String) (n : Int) (limOpt : Option Nat)
    (hlen : e.length = i32AsUsize h.embedding_dim) :
    (storeRun h Env.allOk st "" a t e m n).result = .ok () ∧
    (⟨"", a, t, e, m, n⟩ : Record) ∈
      ((storeRun h Env.allOk st "" a t e m n).state.memories.getD []) ∧
    (deleteRun h Env.allOk st "").result = .ok () ∧
    (listRun h Env.allOk st (some "") limOpt).result = .ok [] := by
  refine ⟨storeRun_allOk_result h st "" a t e m n hlen, ?_, ?_, ?_⟩
  · rw [storeRun_allOk_state h st "" a t e m n hlen]
    simp
  · obtain ⟨mem⟩ := st
    cases mem <;> simp [deleteRun, Env.allOk]
  · obtain ⟨mem⟩ := st
    cases mem <;> simp [listRun, Env.allOk, extractKeys]

/-- Witness for C10 at a concrete store: the empty key round-trips through
`store`, `delete` and `list`. -/
theorem no_key_validation_witness :
    (storeRun ⟨"db", 1⟩ Env.allOk ⟨none⟩ "" "a" "t" [1] none 5).result = .ok () ∧
    (⟨"", "a", "t", [1], none, 5⟩ : Record) ∈
      ((storeRun ⟨"db", 1⟩ Env.allOk ⟨none⟩ "" "a" "t" [1] none 5).state.memories.getD
        []) ∧
    (deleteRun ⟨"db", 1⟩ Env.allOk ⟨none⟩ "").result = .ok () ∧
    (listRun ⟨"db", 1⟩ Env.allOk ⟨none⟩ (some "") none).result = .ok [] :=
  no_key_validation ⟨"db", 1⟩ ⟨none⟩ "a" "t" [1] none 5 none (by decide)

end LanceFFI
